import Mathlib

/-
Verification of the water-quality pivot pipeline (kosh_assignment).

This file gives a shallow embedding of the data path implemented in
src/analysis/base_analysis.py, src/analysis/ct_analysis.py,
src/analysis/tus_analysis.py and the station loop of src/app.py, and
proves properties of that embedding.

Modelling conventions:
* A pandas DataFrame of raw lab results is a `RawTable`: an explicit
  column-name list plus typed rows.  Missing cells (NaN) are `none`.
* Numeric results are rationals (the Python floats in the observed data
  are decimal literals).
* Python exceptions become the `Err` sum type; a function that can raise
  returns `Except Err _`.
* `pandas.to_datetime` applied to the `Date_Time` strings of this data
  set is modelled by `parseDate`, which accepts ISO-like strings
  `YYYY-MM-DD[T...]` / `YYYY-MM-DD[ ...]` and rejects everything else;
  applied to a missing value it yields `none` (NaT) without raising,
  exactly as pandas does.
* `str(date)` / `strftime "%Y-%m-%d"` is `formatDate` (zero-padded).
* `DataFrame.sort_values` is a stable ascending sort, modelled by
  insertion sort `sortLe`.
* `groupby` keys are iterated in sorted order (pandas default
  `sort=True`) and group members keep input order, modelled by
  `pivot_keys` and `group_rows`.
-/

namespace WaterQuality

/-- One raw lab measurement row, the typed view of a row of the uploaded
table with columns Station_ID, Date_Time, PCode, Result.  `none` models
a missing (NaN) cell. -/
structure RawRow where
  station : Option String
  dateTime : Option String
  pcode : Option String
  result : Option ℚ
deriving DecidableEq, Repr

/-- A raw pandas DataFrame: its column-name list plus its rows. -/
structure RawTable where
  cols : List String
  rows : List RawRow
deriving DecidableEq, Repr

/-- The errors the pipeline can raise.  `schema` is the ValueError from
`validate_input` (SchemaError in the spec), `emptyInput` the ValueError
"No data found for ... station" (EmptyInputError), `parse` the exception
raised by `pd.to_datetime` on an unparseable Date_Time string, and
`emptyFrame` the KeyError raised when `_pivot_data` assigns to column
'Dates' of an empty result DataFrame. -/
inductive Err where
  | schema (missing : List String)
  | emptyInput
  | parse
  | emptyFrame
deriving DecidableEq, Repr

/-- A calendar date, the result of `.dt.date`. -/
structure Date where
  year : Nat
  month : Nat
  day : Nat
deriving DecidableEq, Repr

/-- A cleaned row: the raw fields (PCode already stripped) plus the
derived `Date` column; `date = none` models NaT. -/
structure CleanRow where
  station : Option String
  dateTime : Option String
  pcode : Option String
  result : Option ℚ
  date : Option Date
deriving DecidableEq, Repr

/-- The cleaned DataFrame handed to the pivot. -/
structure CleanTable where
  cols : List String
  rows : List CleanRow
deriving DecidableEq, Repr

/-- One pivoted record as built inside `_pivot_data`: station, group
date, and the 25 `Data i` slots (0-indexed here: slot `i` is column
`Data (i+1)`). -/
structure ReportRow where
  station : String
  date : Date
  slots : List (Option ℚ)
deriving DecidableEq, Repr

/-- One row of the final wide DataFrame, after date formatting. -/
structure FinalRow where
  station : String
  dates : String
  slots : List (Option ℚ)
deriving DecidableEq, Repr

/-- The final wide DataFrame: columns plus rows. -/
structure FinalTable where
  header : List String
  rows : List FinalRow
deriving DecidableEq, Repr

/-! ### String and date helpers -/

/-- Whitespace test for the characters Python's `str.strip` removes in
this data set. -/
def isSpaceB (c : Char) : Bool :=
  c == ' ' || c == '\t' || c == '\n' || c == '\r'

/-- Drop leading whitespace from a character list. -/
def dropSpaces : List Char → List Char
  | [] => []
  | c :: cs => if isSpaceB c then dropSpaces cs else c :: cs

/-- Python `str.strip`: remove leading and trailing whitespace. -/
def stripStr (s : String) : String :=
  String.mk ((dropSpaces (dropSpaces s.data.reverse).reverse))

/-- Digit test for ASCII decimal digits. -/
def isDigitB (c : Char) : Bool :=
  48 ≤ c.toNat && c.toNat ≤ 57

/-- Numeric value of an ASCII digit character. -/
def digitVal (c : Char) : Nat := c.toNat - 48

/-- The date named by ten date-digit characters (year from the first
four, month and day from the remaining pairs); the time component is
discarded, as by `.dt.date`. -/
def ymdOf (c0 c1 c2 c3 c5 c6 c8 c9 : Char) : Date :=
  ⟨digitVal c0 * 1000 + digitVal c1 * 100 + digitVal c2 * 10 + digitVal c3,
   digitVal c5 * 10 + digitVal c6,
   digitVal c8 * 10 + digitVal c9⟩

/-- Parse an ISO-like date-time character list into a calendar date. -/
def parseYmd (cs : List Char) : Option Date :=
  match cs with
  | c0 :: c1 :: c2 :: c3 :: c4 :: c5 :: c6 :: c7 :: c8 :: c9 :: rest =>
    if isDigitB c0 && isDigitB c1 && isDigitB c2 && isDigitB c3 && c4 == '-'
        && isDigitB c5 && isDigitB c6 && c7 == '-' && isDigitB c8 && isDigitB c9
        && (match rest with
            | [] => true
            | c :: _ => c == 'T' || c == ' ') then
      if 1 ≤ (ymdOf c0 c1 c2 c3 c5 c6 c8 c9).month
          && (ymdOf c0 c1 c2 c3 c5 c6 c8 c9).month ≤ 12
          && 1 ≤ (ymdOf c0 c1 c2 c3 c5 c6 c8 c9).day
          && (ymdOf c0 c1 c2 c3 c5 c6 c8 c9).day ≤ 31 then
        some (ymdOf c0 c1 c2 c3 c5 c6 c8 c9)
      else none
    else none
  | _ => none

/-- `pd.to_datetime` on one string of this data set (no `errors` option,
so failure raises in the caller). -/
def parseDate (s : String) : Option Date := parseYmd s.data

/-- The decimal digit character for `n % 10`. -/
def dchar (n : Nat) : Char := Char.ofNat (48 + n % 10)

/-- `strftime "%Y-%m-%d"` (equivalently `str` on a `datetime.date`):
zero-padded `YYYY-MM-DD`. -/
def formatDate (d : Date) : String :=
  String.mk [dchar (d.year / 1000), dchar (d.year / 100), dchar (d.year / 10),
    dchar d.year, '-', dchar (d.month / 10), dchar d.month, '-',
    dchar (d.day / 10), dchar d.day]

/-- Shape check for a canonical `YYYY-MM-DD` string. -/
def isYmdString (s : String) : Bool :=
  match s.data with
  | [c0, c1, c2, c3, c4, c5, c6, c7, c8, c9] =>
    isDigitB c0 && isDigitB c1 && isDigitB c2 && isDigitB c3 && c4 == '-'
      && isDigitB c5 && isDigitB c6 && c7 == '-' && isDigitB c8 && isDigitB c9
  | _ => false

/-- Dates produced by `parseDate` satisfy these bounds; they make
`formatDate` injective. -/
def validYmd (d : Date) : Prop :=
  d.year ≤ 9999 ∧ 1 ≤ d.month ∧ d.month ≤ 12 ∧ 1 ≤ d.day ∧ d.day ≤ 31

instance (d : Date) : Decidable (validYmd d) := by
  unfold validYmd; infer_instance

/-- Chronological order on calendar dates, as `sort_values` sees them
after `pd.to_datetime`. -/
def dateLe (a b : Date) : Bool :=
  decide (a.year < b.year ∨ (a.year = b.year ∧
    (a.month < b.month ∨ (a.month = b.month ∧ a.day ≤ b.day))))

/-- Lexicographic strict order on character lists (string order used by
pandas when sorting keys). -/
def strLtb : List Char → List Char → Bool
  | [], [] => false
  | [], _ :: _ => true
  | _ :: _, [] => false
  | a :: as, b :: bs => a.toNat < b.toNat || (a.toNat == b.toNat && strLtb as bs)

/-- Order on `(station, date)` group keys, matching the sorted key order
of `groupby(['Station_ID', 'Date'])`. -/
def keyLe (a b : String × Date) : Bool :=
  strLtb a.1.data b.1.data || (a.1 == b.1 && dateLe a.2 b.2)

/-! ### Stable sort and unique (first-occurrence) helpers -/

/-- Insert into a sorted list, keeping the new element before equal
ones it originally preceded (stability). -/
def insertLe (le : α → α → Bool) (a : α) : List α → List α
  | [] => [a]
  | b :: bs => if le a b then a :: b :: bs else b :: insertLe le a bs

/-- Stable ascending insertion sort, modelling `sort_values`. -/
def sortLe (le : α → α → Bool) : List α → List α
  | [] => []
  | a :: as => insertLe le a (sortLe le as)

/-- Keep the first occurrence of each value, in order of first
appearance (pandas `unique` / distinct `groupby` keys before sorting). -/
def dedupKeepFirst [DecidableEq α] : List α → List α
  | [] => []
  | a :: as => a :: (dedupKeepFirst as).filter (fun b => decide (b ≠ a))

/-- Elementwise fallible map, modelling a pandas column conversion that
raises on the first bad element. -/
def mapExcept (f : α → Except Err β) : List α → Except Err (List β)
  | [] => .ok []
  | a :: as =>
    match f a with
    | .error e => .error e
    | .ok b =>
      match mapExcept f as with
      | .error e => .error e
      | .ok bs => .ok (b :: bs)

/-- Python `list.index` for the parameter catalog (callers guard with a
membership test first, as the source does). -/
def idxOf (p : String) : List String → Nat
  | [] => 0
  | q :: qs => if q = p then 0 else idxOf p qs + 1

/-! ### Shared analysis steps (BaseAnalysis) -/

namespace BaseAnalysis

/-- `BaseAnalysis.validate_input`: collect the required column names
missing from the table's columns and raise if any. -/
def validate_input (df : RawTable) (required_columns : List String) : Except Err Unit :=
  let missing_cols := required_columns.filter (fun col => !(df.cols.contains col))
  if missing_cols.isEmpty then .ok () else .error (.schema missing_cols)

/-- Is every field of the row missing (an all-NaN row, as dropped by
`dropna(how='all')`)? -/
def isAllNull (r : RawRow) : Bool :=
  decide (r.station = none) && decide (r.dateTime = none)
    && decide (r.pcode = none) && decide (r.result = none)

/-- `BaseAnalysis.clean_data`: `drop_duplicates()` (keep first) then
`dropna(how='all')`.  The source's final branch converts a 'Dates'
column when present; the raw upload schema modelled here has no such
column, so that branch does nothing on these inputs. -/
def clean_data (df : RawTable) : RawTable :=
  ⟨df.cols, (dedupKeepFirst df.rows).filter (fun r => !isAllNull r)⟩

end BaseAnalysis

/-! ### Cleaning (CTAnalysis._clean_raw_data / TUSAnalysis._clean_raw_data) -/

/-- Strip the PCode cell (`df['PCode'].str.strip()`; NaN stays NaN). -/
def pcodeTrim (r : RawRow) : RawRow :=
  { r with pcode := r.pcode.map stripStr }

/-- Derive the `Date` column for one row:
`pd.to_datetime(df['Date_Time']).dt.date`.  A missing value becomes NaT
(`none`); an unparseable string raises. -/
def cleanRowOf (r : RawRow) : Except Err CleanRow :=
  match r.dateTime with
  | none => .ok ⟨r.station, r.dateTime, r.pcode, r.result, none⟩
  | some s =>
    match parseDate s with
    | some d => .ok ⟨r.station, some s, r.pcode, r.result, some d⟩
    | none => .error .parse

/-- `_clean_raw_data`: strip column names, strip PCode, convert
Date_Time to a date column (raising on an unparseable string). -/
def clean_raw_data (t : RawTable) : Except Err CleanTable :=
  match mapExcept cleanRowOf (t.rows.map pcodeTrim) with
  | .error e => .error e
  | .ok crows => .ok ⟨t.cols.map stripStr ++ ["Date"], crows⟩

/-! ### Pivot machinery shared by both stations -/

/-- The `(station, date)` key of a row, when both are present; rows with
a missing station or NaT date carry no key and are dropped by
`groupby`. -/
def keyOf (r : CleanRow) : Option (String × Date) :=
  match r.station, r.date with
  | some s, some d => some (s, d)
  | _, _ => none

/-- The distinct group keys, in the sorted order `groupby` iterates
them. -/
def pivot_keys (rows : List CleanRow) : List (String × Date) :=
  sortLe keyLe (dedupKeepFirst (rows.filterMap keyOf))

/-- The member records of one group, in input order. -/
def group_rows (s : String) (d : Date) (rows : List CleanRow) : List CleanRow :=
  rows.filter (fun r => decide (r.station = some s) && decide (r.date = some d))

/-- All 25 `Data i` slots initialized to NaN. -/
def initSlots : List (Option ℚ) := List.replicate 25 none

/-- Processing one group record: if its PCode is in the catalog, write
its Result into the catalog slot, overwriting any earlier value;
otherwise leave the slots unchanged. -/
def slot_step (paramOrder : List String) (slots : List (Option ℚ)) (r : CleanRow) :
    List (Option ℚ) :=
  match r.pcode with
  | none => slots
  | some p =>
    if paramOrder.contains p then slots.set (idxOf p paramOrder) r.result else slots

/-- Fold a group's records, in order, into the slot array. -/
def fillSlots (paramOrder : List String) (init : List (Option ℚ))
    (recs : List CleanRow) : List (Option ℚ) :=
  recs.foldl (slot_step paramOrder) init

/-- Does this record write slot `k` (catalog hit at position `k`)? -/
def writesSlot (paramOrder : List String) (k : Nat) (r : CleanRow) : Bool :=
  match r.pcode with
  | none => false
  | some p => paramOrder.contains p && decide (idxOf p paramOrder = k)

/-- Does this record's PCode appear in the catalog at all? -/
def isCatalogOf (paramOrder : List String) (r : CleanRow) : Bool :=
  match r.pcode with
  | none => false
  | some p => paramOrder.contains p

/-- The fixed output column layout `Station, Dates, Data 1 .. Data 25`. -/
def reportHeader : List String :=
  ["Station", "Dates"] ++ (List.range 25).map (fun i => "Data " ++ toString (i + 1))

/-- Render one pivoted record into a final row (canonical date string). -/
def finalRowOf (r : ReportRow) : FinalRow :=
  ⟨r.station, formatDate r.date, r.slots⟩

/-- Final row order for CT: `sort_values('Dates')`. -/
def rowDateLe (a b : ReportRow) : Bool := dateLe a.date b.date

/-- Final row order for TUS: `sort_values(['Station', 'Dates'])`. -/
def rowStationDateLe (a b : ReportRow) : Bool :=
  strLtb a.station.data b.station.data || (a.station == b.station && dateLe a.date b.date)

/-! ### CTAnalysis -/

namespace CTAnalysis

/-- The CT parameter catalog, in output-slot order. -/
def PARAM_ORDER : List String :=
  ["FLOW, IN", "BOD, IN", "TSS, IN", "TEMP, IN", "PH, IN",
   "FLOW, EFF", "BOD, EFF", "TSS, EFF", "TEMP, EFF", "PH, EFF",
   "DO, IN", "DO, EFF", "FC, EFF", "NH4, EFF", "TN, EFF", "TP, EFF",
   "FC, IN", "BOD CALC", "BOD, REM", "TSS, REM", "BOD, L", "TSS, L",
   "NH4, L", "TN, L", "TP, L"]

/-- The columns the raw upload must contain. -/
def REQUIRED_COLUMNS : List String := ["Station_ID", "Date_Time", "PCode", "Result"]

/-- `df[df['Station_ID'] == 'CT']`: keep the CT rows (a NaN station
never equals 'CT'). -/
def filterStation (df : RawTable) : RawTable :=
  ⟨df.cols, df.rows.filter (fun r => decide (r.station = some "CT"))⟩

/-- The pivoted records, one per distinct `(station, date)` key. -/
def report_rows (rows : List CleanRow) : List ReportRow :=
  (pivot_keys rows).map
    (fun k => ⟨k.1, k.2, fillSlots PARAM_ORDER initSlots (group_rows k.1 k.2 rows)⟩)

/-- `CTAnalysis._pivot_data`: build one record per group, then format
dates, sort ascending by date, and fix the column order.  An empty
record list makes the column assignment on the empty DataFrame raise
(`Err.emptyFrame`). -/
def pivot_data (rows : List CleanRow) : Except Err FinalTable :=
  match report_rows rows with
  | [] => .error .emptyFrame
  | r :: rs =>
    .ok ⟨reportHeader, (sortLe rowDateLe (r :: rs)).map finalRowOf⟩

/-- `CTAnalysis.process`: validate, filter to CT, fail on an empty
filter, clean, pivot. -/
def process (df : RawTable) : Except Err FinalTable :=
  match BaseAnalysis.validate_input df REQUIRED_COLUMNS with
  | .error e => .error e
  | .ok _ =>
    if (filterStation df).rows.isEmpty then .error .emptyInput
    else
      match clean_raw_data (filterStation df) with
      | .error e => .error e
      | .ok ct => pivot_data ct.rows

/-- The rows the pivot receives for an input table (empty if cleaning
raised). -/
def cleaned_rows (df : RawTable) : List CleanRow :=
  match clean_raw_data (filterStation df) with
  | .ok ct => ct.rows
  | .error _ => []

end CTAnalysis

/-! ### TUSAnalysis -/

namespace TUSAnalysis

/-- The TUS parameter catalog (the source repeats the same list). -/
def PARAM_ORDER : List String :=
  ["FLOW, IN", "BOD, IN", "TSS, IN", "TEMP, IN", "PH, IN",
   "FLOW, EFF", "BOD, EFF", "TSS, EFF", "TEMP, EFF", "PH, EFF",
   "DO, IN", "DO, EFF", "FC, EFF", "NH4, EFF", "TN, EFF", "TP, EFF",
   "FC, IN", "BOD CALC", "BOD, REM", "TSS, REM", "BOD, L", "TSS, L",
   "NH4, L", "TN, L", "TP, L"]

/-- The columns the raw upload must contain. -/
def REQUIRED_COLUMNS : List String := ["Station_ID", "Date_Time", "PCode", "Result"]

/-- `df[df['Station_ID'] == 'TUS']`. -/
def filterStation (df : RawTable) : RawTable :=
  ⟨df.cols, df.rows.filter (fun r => decide (r.station = some "TUS"))⟩

/-- The pivoted records, one per distinct `(station, date)` key
(`TUSAnalysis._pivot_data` builds them through `unique_dates`, with the
same result). -/
def report_rows (rows : List CleanRow) : List ReportRow :=
  (pivot_keys rows).map
    (fun k => ⟨k.1, k.2, fillSlots PARAM_ORDER initSlots (group_rows k.1 k.2 rows)⟩)

/-- `TUSAnalysis._pivot_data`: as for CT, but the final sort is
`sort_values(['Station', 'Dates'])`. -/
def pivot_data (rows : List CleanRow) : Except Err FinalTable :=
  match report_rows rows with
  | [] => .error .emptyFrame
  | r :: rs =>
    .ok ⟨reportHeader, (sortLe rowStationDateLe (r :: rs)).map finalRowOf⟩

/-- `TUSAnalysis.process`. -/
def process (df : RawTable) : Except Err FinalTable :=
  match BaseAnalysis.validate_input df REQUIRED_COLUMNS with
  | .error e => .error e
  | .ok _ =>
    if (filterStation df).rows.isEmpty then .error .emptyInput
    else
      match clean_raw_data (filterStation df) with
      | .error e => .error e
      | .ok ct => pivot_data ct.rows

end TUSAnalysis

/-! ### The station batch loop (app.process_and_upload_data) -/

namespace App

/-- The BigQuery table ids from src/config/settings.py. -/
def ct_table : String := "koshai-475618.water_analysis.ct_analysis"

/-- The BigQuery table id for the TUS station. -/
def tus_table : String := "koshai-475618.water_analysis.tus_analysis"

/-- The state of the storage collaborator: table id to stored table.
Modelled from the spec's storage-backend contract (section 6); the
source delegates to BigQuery with `WRITE_TRUNCATE`, so a write either
fully replaces the table or (on failure) leaves it unmodified. -/
def Tables := List (String × FinalTable)

/-- Overwrite one table id in the store. -/
def setTable : Tables → String → FinalTable → Tables
  | [], tid, t => [(tid, t)]
  | (k, v) :: rest, tid, t =>
    if k = tid then (tid, t) :: rest else (k, v) :: setTable rest tid t

/-- Look up a stored table. -/
def lookupTable : Tables → String → Option FinalTable
  | [], _ => none
  | (k, v) :: rest, tid => if k = tid then some v else lookupTable rest tid

/-- `BigQueryClient.upload_dataframe`: on success the table is fully
replaced, on failure the store is untouched and `false` is returned. -/
def upload_dataframe (ok : Bool) (tbls : Tables) (tid : String) (t : FinalTable) :
    Bool × Tables :=
  if ok then (true, setTable tbls tid t) else (false, tbls)

/-- The events the loop surfaces to the UI (`st.warning` / `st.error` /
`st.success`). -/
inductive StEv where
  | warnUnknown (st : Option String)
  | procError (name : String) (e : Err)
  | uploadError (name : String)
  | uploaded (name : String)
deriving DecidableEq, Repr

/-- The analyzer dispatch of the loop body: a known station maps to its
display name and target table id; anything else is warned and skipped. -/
def stationTable : Option String → Option (String × String)
  | some "CT" => some ("CT", ct_table)
  | some "TUS" => some ("TUS", tus_table)
  | _ => none

/-- `analyzer.process(df)` for the dispatched station (the whole upload
is passed to each analyzer, as in the source). -/
def stationProc (st : Option String) (df : RawTable) : Except Err FinalTable :=
  match st with
  | some "TUS" => TUSAnalysis.process df
  | _ => CTAnalysis.process df

/-- The `for station in stations` loop of `process_and_upload_data`:
unknown stations are skipped with a warning; a processing exception or a
failed upload reports an error and returns `False` immediately, leaving
the remaining stations unprocessed; a successful upload replaces the
station's table and continues.  `g` is the upload collaborator's
success oracle per table id. -/
def runStations (df : RawTable) (g : String → Bool) :
    List (Option String) → Tables → Bool × List StEv × Tables
  | [], tbls => (true, [], tbls)
  | st :: rest, tbls =>
    match stationTable st with
    | none =>
      let r := runStations df g rest tbls
      (r.1, .warnUnknown st :: r.2.1, r.2.2)
    | some (name, tid) =>
      match stationProc st df with
      | .error e => (false, [.procError name e], tbls)
      | .ok out =>
        match upload_dataframe (g tid) tbls tid out with
        | (true, tbls') =>
          let r := runStations df g rest tbls'
          (r.1, .uploaded name :: r.2.1, r.2.2)
        | (false, _) => (false, [.uploadError name], tbls)

/-- `df['Station_ID'].unique()`: the distinct station cells in order of
first appearance (a missing cell is a value of its own). -/
def stationsOf (df : RawTable) : List (Option String) :=
  dedupKeepFirst (df.rows.map (·.station))

/-- `app.process_and_upload_data`: reject a file without a Station_ID
column, otherwise run the per-station loop. -/
def process_and_upload_data (df : RawTable) (g : String → Bool) (tbls : Tables) :
    Bool × List StEv × Tables :=
  if df.cols.contains "Station_ID" then runStations df g (stationsOf df) tbls
  else (false, [], tbls)

/-- The stations for which processing was actually attempted, in order. -/
def attempted : List StEv → List String
  | [] => []
  | .warnUnknown _ :: rest => attempted rest
  | .procError n _ :: rest => n :: attempted rest
  | .uploadError n :: rest => n :: attempted rest
  | .uploaded n :: rest => n :: attempted rest

end App

/-! ### Heap model of `CTAnalysis.process` for the frame property

The pandas steps of `process` either allocate fresh frames
(mask-indexing, `.copy()`) or assign columns in place on the frame built
inside `_clean_raw_data`.  To state that the caller's frame is never
mutated, the same steps are replayed against an explicit heap of frame
objects: allocation appends, in-place column assignment `List.set`s the
object it targets. -/

/-- A heap cell: a live DataFrame object, raw or cleaned. -/
inductive Obj where
  | raw (t : RawTable)
  | cleaned (cols : List String) (rows : List CleanRow)
deriving DecidableEq, Repr

namespace CTAnalysis

/-- `CTAnalysis.process` replayed on an object heap.  `i` is the index
of the caller's DataFrame.  `df[mask]` and `.copy()` allocate; the three
column assignments of `_clean_raw_data` mutate only the copy allocated
there.  (On an index that does not hold a raw frame the model returns an
arbitrary error; the theorems only invoke it on one that does.) -/
def processOnHeap (h : List Obj) (i : Nat) : List Obj × Except Err FinalTable :=
  match h[i]? with
  | some (Obj.raw df) =>
    match BaseAnalysis.validate_input df REQUIRED_COLUMNS with
    | .error e => (h, .error e)
    | .ok _ =>
      -- df = df[df['Station_ID'] == 'CT'].copy()
      let h1 := h ++ [Obj.raw (filterStation df)]
      let h2 := h1 ++ [Obj.raw (filterStation df)]
      if (filterStation df).rows.isEmpty then (h2, .error .emptyInput)
      else
        -- _clean_raw_data: df = df.copy()
        let j := h2.length
        let h3 := h2 ++ [Obj.raw (filterStation df)]
        -- df.columns = df.columns.str.strip()
        let t1 : RawTable := ⟨(filterStation df).cols.map stripStr, (filterStation df).rows⟩
        let h4 := h3.set j (Obj.raw t1)
        -- df['PCode'] = df['PCode'].str.strip()
        let t2 : RawTable := ⟨t1.cols, t1.rows.map pcodeTrim⟩
        let h5 := h4.set j (Obj.raw t2)
        -- df['Date'] = pd.to_datetime(df['Date_Time']).dt.date
        match mapExcept cleanRowOf t2.rows with
        | .error e => (h5, .error e)
        | .ok crows =>
          let h6 := h5.set j (Obj.cleaned (t2.cols ++ ["Date"]) crows)
          (h6, pivot_data crows)
  | _ => (h, .error .emptyInput)

end CTAnalysis

/-! ### Concrete tables used by the witnesses and counterexamples -/

/-- The three-row scenario from the specification: two FLOW readings and
one BOD reading for CT on 2021-01-05. -/
def c1Table : RawTable :=
  ⟨["Station_ID", "Date_Time", "PCode", "Result"],
   [⟨some "CT", some "2021-01-05T08:00", some "FLOW, IN", some 10⟩,
    ⟨some "CT", some "2021-01-05T14:00", some "FLOW, IN", some 12⟩,
    ⟨some "CT", some "2021-01-05T09:00", some "BOD, IN", some 5⟩]⟩

/-- The wide table the CT pipeline produces for `c1Table`. -/
def c1Out : FinalTable :=
  ⟨reportHeader,
   [⟨"CT", "2021-01-05", [some 12, some 5] ++ List.replicate 23 none⟩]⟩

/-- The cleaned form of the later FLOW record of `c1Table`. -/
def c1FlowRow : CleanRow :=
  ⟨some "CT", some "2021-01-05T14:00", some "FLOW, IN", some 12, some ⟨2021, 1, 5⟩⟩

/-- A CT upload holding one good row and one row whose timestamp does
not parse. -/
def c3Bad : RawTable :=
  ⟨["Station_ID", "Date_Time", "PCode", "Result"],
   [⟨some "CT", some "2021-01-06T08:00", some "FLOW, IN", some 3⟩,
    ⟨some "CT", some "not-a-date", some "BOD, IN", some 4⟩]⟩

/-- The unparseable row of `c3Bad`. -/
def c3BadRow : RawRow := ⟨some "CT", some "not-a-date", some "BOD, IN", some 4⟩

/-- `c3Bad` with the unparseable row removed. -/
def c3Good : RawTable :=
  ⟨["Station_ID", "Date_Time", "PCode", "Result"],
   [⟨some "CT", some "2021-01-06T08:00", some "FLOW, IN", some 3⟩]⟩

/-- The wide table the CT pipeline produces for `c3Good`. -/
def c3GoodOut : FinalTable :=
  ⟨reportHeader,
   [⟨"CT", "2021-01-06", [some 3] ++ List.replicate 24 none⟩]⟩

/-- A CT upload where the first row recurs verbatim after a second FLOW
reading. -/
def c4Full : RawTable :=
  ⟨["Station_ID", "Date_Time", "PCode", "Result"],
   [⟨some "CT", some "2021-01-05T08:00", some "FLOW, IN", some 10⟩,
    ⟨some "CT", some "2021-01-05T09:00", some "FLOW, IN", some 12⟩,
    ⟨some "CT", some "2021-01-05T08:00", some "FLOW, IN", some 10⟩]⟩

/-- `c4Full` with exact duplicates removed (first occurrences kept). -/
def c4Dedup : RawTable :=
  ⟨["Station_ID", "Date_Time", "PCode", "Result"],
   [⟨some "CT", some "2021-01-05T08:00", some "FLOW, IN", some 10⟩,
    ⟨some "CT", some "2021-01-05T09:00", some "FLOW, IN", some 12⟩]⟩

/-- CT output for `c4Full`: the repeated first row writes last, so the
FLOW slot holds 10. -/
def c4FullOut : FinalTable :=
  ⟨reportHeader,
   [⟨"CT", "2021-01-05", [some 10] ++ List.replicate 24 none⟩]⟩

/-- CT output for `c4Dedup`: without the duplicate the FLOW slot holds
the later reading 12. -/
def c4DedupOut : FinalTable :=
  ⟨reportHeader,
   [⟨"CT", "2021-01-05", [some 12] ++ List.replicate 24 none⟩]⟩

/-- An upload containing a CT row with an unparseable timestamp and a
valid TUS row. -/
def c5Df : RawTable :=
  ⟨["Station_ID", "Date_Time", "PCode", "Result"],
   [⟨some "CT", some "not-a-date", some "FLOW, IN", some 1⟩,
    ⟨some "TUS", some "2021-01-05T08:00", some "FLOW, IN", some 2⟩]⟩

/-- The wide table the TUS pipeline would produce for `c5Df`. -/
def c5TusOut : FinalTable :=
  ⟨reportHeader,
   [⟨"TUS", "2021-01-05", [some 2] ++ List.replicate 24 none⟩]⟩

/-- A raw table whose only rows belong to the unknown station XYZ (with
a timestamp that would not even parse). -/
def c6Xyz : RawTable :=
  ⟨["Station_ID", "Date_Time", "PCode", "Result"],
   [⟨some "XYZ", some "nonsense!", some "FLOW, IN", some 1⟩]⟩

/-- A raw table missing the required Result column. -/
def c7Missing : RawTable :=
  ⟨["Station_ID", "Date_Time", "PCode"],
   [⟨some "CT", some "not-a-date", some "FLOW, IN", some 1⟩]⟩

/-- A table with the same columns as `c7Missing` but different rows. -/
def c7Same : RawTable :=
  ⟨["Station_ID", "Date_Time", "PCode"], []⟩

/-- A cleaned row whose PCode is not in any catalog. -/
def c8Rows : List CleanRow :=
  [⟨some "CT", some "2021-01-05T08:00", some "MYSTERY", some 7, some ⟨2021, 1, 5⟩⟩]

/-! ### Lemmas about the stable sort -/

theorem perm_insertLe (le : α → α → Bool) (a : α) (l : List α) :
    (insertLe le a l).Perm (a :: l) := by
  induction l with
  | nil => simp [insertLe]
  | cons b bs ih =>
    cases hle : le a b with
    | true => simp [insertLe, hle]
    | false =>
      simp only [insertLe, hle, Bool.false_eq_true, if_false]
      exact (ih.cons b).trans (List.Perm.swap a b bs)

theorem perm_sortLe (le : α → α → Bool) (l : List α) : (sortLe le l).Perm l := by
  induction l with
  | nil => simp [sortLe]
  | cons a as ih => exact (perm_insertLe le a (sortLe le as)).trans (ih.cons a)

theorem pairwise_insertLe (le : α → α → Bool)
    (htot : ∀ x y, le x y = true ∨ le y x = true)
    (htr : ∀ x y z, le x y = true → le y z = true → le x z = true)
    (a : α) (l : List α) (hl : l.Pairwise (fun x y => le x y = true)) :
    (insertLe le a l).Pairwise (fun x y => le x y = true) := by
  induction l with
  | nil => simp [insertLe]
  | cons b bs ih =>
    rcases List.pairwise_cons.mp hl with ⟨hb, hbs⟩
    cases hle : le a b with
    | true =>
      simp only [insertLe, hle, if_true]
      refine List.pairwise_cons.mpr ⟨?_, hl⟩
      intro y hy
      rcases List.mem_cons.mp hy with rfl | hy2
      · exact hle
      · exact htr a b y hle (hb y hy2)
    | false =>
      have hba : le b a = true := by
        rcases htot a b with h | h
        · rw [hle] at h; exact absurd h (by simp)
        · exact h
      simp only [insertLe, hle, Bool.false_eq_true, if_false]
      refine List.pairwise_cons.mpr ⟨?_, ih hbs⟩
      intro y hy
      have hmem : y ∈ a :: bs := (perm_insertLe le a bs).mem_iff.mp hy
      rcases List.mem_cons.mp hmem with rfl | hy2
      · exact hba
      · exact hb y hy2

theorem pairwise_sortLe (le : α → α → Bool)
    (htot : ∀ x y, le x y = true ∨ le y x = true)
    (htr : ∀ x y z, le x y = true → le y z = true → le x z = true)
    (l : List α) : (sortLe le l).Pairwise (fun x y => le x y = true) := by
  induction l with
  | nil => simp [sortLe]
  | cons a as ih => exact pairwise_insertLe le htot htr a (sortLe le as) ih

/-! ### Lemmas about first-occurrence dedup -/

theorem mem_dedupKeepFirst [DecidableEq α] (a : α) (l : List α) :
    a ∈ dedupKeepFirst l ↔ a ∈ l := by
  induction l with
  | nil => simp [dedupKeepFirst]
  | cons b bs ih =>
    simp only [dedupKeepFirst, List.mem_cons, List.mem_filter, decide_eq_true_eq]
    constructor
    · rintro (rfl | ⟨h1, _⟩)
      · exact .inl rfl
      · exact .inr (ih.mp h1)
    · rintro (rfl | h)
      · exact .inl rfl
      · by_cases hab : a = b
        · exact .inl hab
        · exact .inr ⟨ih.mpr h, hab⟩

theorem nodup_dedupKeepFirst [DecidableEq α] (l : List α) : (dedupKeepFirst l).Nodup := by
  induction l with
  | nil => simp [dedupKeepFirst]
  | cons b bs ih =>
    refine List.nodup_cons.mpr ⟨?_, ih.filter _⟩
    intro hmem
    rcases List.mem_filter.mp hmem with ⟨_, hbb⟩
    simp at hbb

/-! ### Lemmas about elementwise fallible maps -/

theorem mapExcept_ok_length (f : α → Except Err β) (l : List α) (l' : List β)
    (h : mapExcept f l = .ok l') : l'.length = l.length := by
  induction l generalizing l' with
  | nil => simp [mapExcept] at h; simp [← h]
  | cons a as ih =>
    simp only [mapExcept] at h
    cases hfa : f a with
    | error e => rw [hfa] at h; exact absurd h (by simp)
    | ok b =>
      rw [hfa] at h
      cases hrec : mapExcept f as with
      | error e => rw [hrec] at h; exact absurd h (by simp)
      | ok bs =>
        rw [hrec] at h
        cases h
        simp [ih bs hrec]

theorem mapExcept_ok_mem (f : α → Except Err β) (l : List α) (l' : List β) (b : β)
    (h : mapExcept f l = .ok l') (hb : b ∈ l') : ∃ a ∈ l, f a = .ok b := by
  induction l generalizing l' with
  | nil =>
    simp [mapExcept] at h
    subst h
    simp at hb
  | cons a as ih =>
    simp only [mapExcept] at h
    cases hfa : f a with
    | error e => rw [hfa] at h; exact absurd h (by simp)
    | ok b0 =>
      rw [hfa] at h
      cases hrec : mapExcept f as with
      | error e => rw [hrec] at h; exact absurd h (by simp)
      | ok bs =>
        rw [hrec] at h
        cases h
        rcases List.mem_cons.mp hb with rfl | hb2
        · exact ⟨a, List.mem_cons_self a as, hfa⟩
        · rcases ih bs hrec hb2 with ⟨a', ha', hfa'⟩
          exact ⟨a', List.mem_cons_of_mem a ha', hfa'⟩

theorem mapExcept_error_of_mem (f : α → Except Err β) (l : List α) (a : α) (e : Err)
    (ha : a ∈ l) (hfa : f a = .error e) : ∃ e', mapExcept f l = .error e' := by
  induction l with
  | nil => simp at ha
  | cons x xs ih =>
    rcases List.mem_cons.mp ha with rfl | ha2
    · exact ⟨e, by simp [mapExcept, hfa]⟩
    · cases hfx : f x with
      | error e0 => exact ⟨e0, by simp [mapExcept, hfx]⟩
      | ok b =>
        rcases ih ha2 with ⟨e', he'⟩
        exact ⟨e', by simp [mapExcept, hfx, he']⟩

theorem mapExcept_error_elim (f : α → Except Err β) (l : List α) (e : Err)
    (h : mapExcept f l = .error e) : ∃ a ∈ l, f a = .error e := by
  induction l with
  | nil => simp [mapExcept] at h
  | cons x xs ih =>
    simp only [mapExcept] at h
    cases hfx : f x with
    | error e0 =>
      rw [hfx] at h
      cases h
      exact ⟨x, List.mem_cons_self x xs, hfx⟩
    | ok b =>
      rw [hfx] at h
      cases hrec : mapExcept f xs with
      | error e0 =>
        rw [hrec] at h
        cases h
        rcases ih hrec with ⟨a, ha, hfa⟩
        exact ⟨a, List.mem_cons_of_mem x ha, hfa⟩
      | ok bs => rw [hrec] at h; exact absurd h (by simp)

/-! ### Lemmas about the cleaning step -/

theorem cleanRowOf_ok (r : RawRow) (cr : CleanRow) (h : cleanRowOf r = .ok cr) :
    cr.station = r.station ∧ cr.pcode = r.pcode ∧ cr.result = r.result ∧
      ∀ d, cr.date = some d → ∃ s, r.dateTime = some s ∧ parseDate s = some d := by
  obtain ⟨st, dt, pc, res⟩ := r
  cases dt with
  | none =>
    simp only [cleanRowOf] at h
    cases h
    refine ⟨rfl, rfl, rfl, ?_⟩
    intro d hd
    exact absurd hd (by simp)
  | some s =>
    simp only [cleanRowOf] at h
    cases hp : parseDate s with
    | none => rw [hp] at h; exact absurd h (by simp)
    | some d0 =>
      rw [hp] at h
      cases h
      refine ⟨rfl, rfl, rfl, ?_⟩
      intro d hd
      cases hd
      exact ⟨s, rfl, hp⟩

theorem cleanRowOf_error (r : RawRow) (e : Err) (h : cleanRowOf r = .error e) :
    e = .parse ∧ ∃ s, r.dateTime = some s ∧ parseDate s = none := by
  obtain ⟨st, dt, pc, res⟩ := r
  cases dt with
  | none => simp only [cleanRowOf] at h; exact absurd h (by simp)
  | some s =>
    simp only [cleanRowOf] at h
    cases hp : parseDate s with
    | none =>
      rw [hp] at h
      cases h
      exact ⟨rfl, s, rfl, hp⟩
    | some d0 => rw [hp] at h; exact absurd h (by simp)

theorem clean_raw_data_rows (t : RawTable) (ct : CleanTable)
    (h : clean_raw_data t = .ok ct) :
    mapExcept cleanRowOf (t.rows.map pcodeTrim) = .ok ct.rows := by
  unfold clean_raw_data at h
  cases hm : mapExcept cleanRowOf (t.rows.map pcodeTrim) with
  | error e => rw [hm] at h; exact absurd h (by simp)
  | ok crows =>
    rw [hm] at h
    cases h
    rfl

theorem clean_raw_data_error (t : RawTable) (e : Err)
    (h : clean_raw_data t = .error e) : e = .parse := by
  unfold clean_raw_data at h
  cases hm : mapExcept cleanRowOf (t.rows.map pcodeTrim) with
  | error e0 =>
    rw [hm] at h
    cases h
    rcases mapExcept_error_elim _ _ _ hm with ⟨a, _, hfa⟩
    exact (cleanRowOf_error a e hfa).1
  | ok crows => rw [hm] at h; exact absurd h (by simp)

/-! ### Lemmas about date rendering and parsing -/

theorem dchar_toNat (n : Nat) : (dchar n).toNat = 48 + n % 10 := by
  have h : n % 10 < 10 := Nat.mod_lt _ (by omega)
  unfold dchar
  set k := n % 10 with hk
  interval_cases k <;> decide

theorem isDigitB_dchar (n : Nat) : isDigitB (dchar n) = true := by
  simp only [isDigitB, dchar_toNat, Bool.and_eq_true, decide_eq_true_eq]
  omega

theorem digitVal_dchar (n : Nat) : digitVal (dchar n) = n % 10 := by
  simp [digitVal, dchar_toNat]

theorem parseYmd_valid (cs : List Char) (d : Date) (h : parseYmd cs = some d) :
    validYmd d := by
  unfold parseYmd at h
  split at h
  · rename_i c0 c1 c2 c3 c4 c5 c6 c7 c8 c9 rest
    split at h
    · rename_i hcond
      split at h
      · rename_i hrange
        cases h
        simp only [Bool.and_eq_true, decide_eq_true_eq, isDigitB] at hcond
        simp only [Bool.and_eq_true, decide_eq_true_eq, ymdOf, digitVal] at hrange
        simp only [validYmd, ymdOf, digitVal]
        omega
      · exact absurd h (by simp)
    · exact absurd h (by simp)
  · exact absurd h (by simp)

theorem parseDate_valid (s : String) (d : Date) (h : parseDate s = some d) :
    validYmd d :=
  parseYmd_valid s.data d h

theorem ymdOf_dchar (d : Date) (h : validYmd d) :
    ymdOf (dchar (d.year / 1000)) (dchar (d.year / 100)) (dchar (d.year / 10))
      (dchar d.year) (dchar (d.month / 10)) (dchar d.month)
      (dchar (d.day / 10)) (dchar d.day) = d := by
  rcases h with ⟨hy, hm1, hm2, hd1, hd2⟩
  obtain ⟨y, m, dd⟩ := d
  simp only [ymdOf, digitVal_dchar, Date.mk.injEq] at *
  refine ⟨?_, ?_, ?_⟩ <;> omega

theorem parseDate_formatDate (d : Date) (h : validYmd d) :
    parseDate (formatDate d) = some d := by
  have hymd := ymdOf_dchar d h
  rcases h with ⟨hy, hm1, hm2, hd1, hd2⟩
  show parseYmd [dchar (d.year / 1000), dchar (d.year / 100), dchar (d.year / 10),
    dchar d.year, '-', dchar (d.month / 10), dchar d.month, '-',
    dchar (d.day / 10), dchar d.day] = some d
  unfold parseYmd
  simp only [isDigitB_dchar, hymd, Bool.and_true, Bool.true_and]
  have hrange : (decide (1 ≤ d.month) && decide (d.month ≤ 12)
      && decide (1 ≤ d.day) && decide (d.day ≤ 31)) = true := by
    simp only [Bool.and_eq_true, decide_eq_true_eq]
    omega
  simp [hrange]

theorem formatDate_inj (d1 d2 : Date) (h1 : validYmd d1) (h2 : validYmd d2)
    (h : formatDate d1 = formatDate d2) : d1 = d2 := by
  have e1 := parseDate_formatDate d1 h1
  have e2 := parseDate_formatDate d2 h2
  rw [h, e2] at e1
  exact (Option.some_inj.mp e1).symm

theorem isYmdString_formatDate (d : Date) :
    isYmdString (formatDate d) = true := by
  show isYmdString (String.mk _) = true
  simp only [isYmdString, isDigitB_dchar, Bool.and_true, Bool.true_and]
  rfl

/-! ### Order facts for the final sort -/

theorem dateLe_total (a b : Date) : dateLe a b = true ∨ dateLe b a = true := by
  simp only [dateLe, decide_eq_true_eq]
  omega

theorem dateLe_trans (a b c : Date) (h1 : dateLe a b = true) (h2 : dateLe b c = true) :
    dateLe a c = true := by
  simp only [dateLe, decide_eq_true_eq] at h1 h2 ⊢
  omega

theorem rowDateLe_total (a b : ReportRow) :
    rowDateLe a b = true ∨ rowDateLe b a = true := dateLe_total a.date b.date

theorem rowDateLe_trans (a b c : ReportRow) (h1 : rowDateLe a b = true)
    (h2 : rowDateLe b c = true) : rowDateLe a c = true :=
  dateLe_trans a.date b.date c.date h1 h2

/-! ### Lemmas about the slot array -/

theorem contains_iff_mem (l : List String) (p : String) : l.contains p = true ↔ p ∈ l := by
  simp [List.contains]

theorem idxOf_lt_length (p : String) (l : List String) (h : p ∈ l) :
    idxOf p l < l.length := by
  induction l with
  | nil => simp at h
  | cons q qs ih =>
    unfold idxOf
    by_cases hq : q = p
    · simp [hq]
    · have hmem : p ∈ qs := by
        rcases List.mem_cons.mp h with rfl | h2
        · exact absurd rfl hq
        · exact h2
      simp only [hq, if_false, List.length_cons]
      have := ih hmem
      omega

theorem length_fillSlots (po : List String) (init : List (Option ℚ))
    (recs : List CleanRow) : (fillSlots po init recs).length = init.length := by
  induction recs generalizing init with
  | nil => rfl
  | cons r rest ih =>
    show (fillSlots po (slot_step po init r) rest).length = init.length
    rw [ih]
    unfold slot_step
    split
    · rfl
    · split
      · simp [List.length_set]
      · rfl

theorem fillSlots_lww (po : List String) (init : List (Option ℚ))
    (recs : List CleanRow) (k : Nat) (hlen : po.length ≤ init.length) :
    (fillSlots po init recs)[k]? =
      match recs.reverse.find? (writesSlot po k) with
      | some r => some r.result
      | none => init[k]? := by
  induction recs generalizing init with
  | nil => rfl
  | cons r rest ih =>
    have hstep : (slot_step po init r).length = init.length := by
      unfold slot_step
      split
      · rfl
      · split
        · simp [List.length_set]
        · rfl
    have hrec : (fillSlots po init (r :: rest))[k]? =
        (fillSlots po (slot_step po init r) rest)[k]? := rfl
    rw [hrec, ih (slot_step po init r) (hstep ▸ hlen)]
    rw [List.reverse_cons, List.find?_append]
    cases hfind : rest.reverse.find? (writesSlot po k) with
    | some r' => simp
    | none =>
      simp only [Option.none_or]
      cases hw : writesSlot po k r with
      | true =>
        simp only [List.find?_cons, hw]
        unfold writesSlot at hw
        cases hp : r.pcode with
        | none => rw [hp] at hw; exact absurd hw (by simp)
        | some p =>
          rw [hp] at hw
          simp only [Bool.and_eq_true, decide_eq_true_eq] at hw
          rcases hw with ⟨hcont, hidx⟩
          have hk : k < init.length := by
            have := idxOf_lt_length p po ((contains_iff_mem po p).mp hcont)
            omega
          unfold slot_step
          rw [hp]
          simp only [hcont, if_true, hidx]
          exact List.getElem?_set_self (by omega)
      | false =>
        simp only [List.find?_cons, hw]
        unfold writesSlot at hw
        unfold slot_step
        cases hp : r.pcode with
        | none => rfl
        | some p =>
          rw [hp] at hw
          have hw' : (po.contains p && decide (idxOf p po = k)) = false := hw
          cases hcont : po.contains p with
          | false =>
            simp only [hcont, Bool.false_eq_true, if_false]
            rfl
          | true =>
            rw [hcont, Bool.true_and] at hw'
            have hidx : idxOf p po ≠ k := by
              intro hc
              rw [hc] at hw'
              simp at hw'
            simp only [hcont, if_true]
            exact List.getElem?_set_ne hidx

theorem slot_step_skip (po : List String) (init : List (Option ℚ)) (r : CleanRow)
    (h : isCatalogOf po r = false) : slot_step po init r = init := by
  unfold isCatalogOf at h
  unfold slot_step
  cases hp : r.pcode with
  | none => rfl
  | some p =>
    rw [hp] at h
    have h' : po.contains p = false := h
    simp only [h', Bool.false_eq_true, if_false]

theorem fillSlots_filter (po : List String) (init : List (Option ℚ))
    (recs : List CleanRow) :
    fillSlots po init recs = fillSlots po init (recs.filter (isCatalogOf po)) := by
  induction recs generalizing init with
  | nil => rfl
  | cons r rest ih =>
    cases hc : isCatalogOf po r with
    | false =>
      show fillSlots po (slot_step po init r) rest = _
      rw [slot_step_skip po init r hc, ih init, List.filter_cons, hc]
      simp
    | true =>
      show fillSlots po (slot_step po init r) rest = _
      rw [ih (slot_step po init r), List.filter_cons, hc]
      rfl

/-! ### Structure of a successful CT run -/

theorem ct_process_ok_elim (df : RawTable) (out : FinalTable)
    (h : CTAnalysis.process df = .ok out) :
    ∃ ct : CleanTable,
      BaseAnalysis.validate_input df CTAnalysis.REQUIRED_COLUMNS = .ok ()
      ∧ (CTAnalysis.filterStation df).rows.isEmpty = false
      ∧ clean_raw_data (CTAnalysis.filterStation df) = .ok ct
      ∧ CTAnalysis.pivot_data ct.rows = .ok out := by
  unfold CTAnalysis.process at h
  cases hv : BaseAnalysis.validate_input df CTAnalysis.REQUIRED_COLUMNS with
  | error e => rw [hv] at h; exact absurd h (by simp)
  | ok u =>
    cases u
    rw [hv] at h
    cases hemp : (CTAnalysis.filterStation df).rows.isEmpty with
    | true => rw [hemp] at h; simp at h
    | false =>
      rw [hemp] at h
      simp only [Bool.false_eq_true, if_false] at h
      cases hc : clean_raw_data (CTAnalysis.filterStation df) with
      | error e => rw [hc] at h; exact absurd h (by simp)
      | ok ct =>
        rw [hc] at h
        exact ⟨ct, rfl, rfl, rfl, h⟩

theorem ct_pivot_data_ok (rows : List CleanRow) (out : FinalTable)
    (h : CTAnalysis.pivot_data rows = .ok out) :
    out.header = reportHeader
    ∧ out.rows = (sortLe rowDateLe (CTAnalysis.report_rows rows)).map finalRowOf := by
  unfold CTAnalysis.pivot_data at h
  cases hr : CTAnalysis.report_rows rows with
  | nil => rw [hr] at h; exact absurd h (by simp)
  | cons r rs =>
    rw [hr] at h
    cases h
    exact ⟨rfl, rfl⟩

theorem ct_pivot_data_error (rows : List CleanRow) (e : Err)
    (h : CTAnalysis.pivot_data rows = .error e) : e = .emptyFrame := by
  unfold CTAnalysis.pivot_data at h
  cases hrr : CTAnalysis.report_rows rows with
  | nil =>
    rw [hrr] at h
    have h' : (Except.error Err.emptyFrame : Except Err FinalTable) = .error e := h
    cases h'
    rfl
  | cons r rs =>
    rw [hrr] at h
    have h' : (Except.ok (⟨reportHeader,
        (sortLe rowDateLe (r :: rs)).map finalRowOf⟩ : FinalTable)
        : Except Err FinalTable) = .error e := h
    exact absurd h' (by simp)

theorem ct_filterStation_station (df : RawTable) (r : RawRow)
    (h : r ∈ (CTAnalysis.filterStation df).rows) : r.station = some "CT" := by
  unfold CTAnalysis.filterStation at h
  rcases List.mem_filter.mp h with ⟨_, hdec⟩
  exact of_decide_eq_true hdec

theorem ct_cleaned_rows_eq (df : RawTable) (ct : CleanTable)
    (hc : clean_raw_data (CTAnalysis.filterStation df) = .ok ct) :
    CTAnalysis.cleaned_rows df = ct.rows := by
  unfold CTAnalysis.cleaned_rows
  rw [hc]

theorem ct_clean_station (df : RawTable) (ct : CleanTable) (cr : CleanRow)
    (hc : clean_raw_data (CTAnalysis.filterStation df) = .ok ct) (hcr : cr ∈ ct.rows) :
    cr.station = some "CT" := by
  have hrows := clean_raw_data_rows _ _ hc
  rcases mapExcept_ok_mem _ _ _ _ hrows hcr with ⟨a, ha, hfa⟩
  rcases List.mem_map.mp ha with ⟨r0, hr0, rfl⟩
  have hst := (cleanRowOf_ok _ _ hfa).1
  rw [hst]
  show (pcodeTrim r0).station = some "CT"
  exact ct_filterStation_station df r0 hr0

theorem ct_clean_date_valid (df : RawTable) (ct : CleanTable) (cr : CleanRow)
    (hc : clean_raw_data (CTAnalysis.filterStation df) = .ok ct) (hcr : cr ∈ ct.rows)
    (d : Date) (hd : cr.date = some d) : validYmd d := by
  have hrows := clean_raw_data_rows _ _ hc
  rcases mapExcept_ok_mem _ _ _ _ hrows hcr with ⟨a, _, hfa⟩
  rcases (cleanRowOf_ok _ _ hfa).2.2.2 d hd with ⟨s, _, hps⟩
  exact parseDate_valid s d hps

/-! ### Group keys -/

theorem keyOf_elim (cr : CleanRow) (k : String × Date) (h : keyOf cr = some k) :
    cr.station = some k.1 ∧ cr.date = some k.2 := by
  obtain ⟨st, dt, pc, res, da⟩ := cr
  cases st with
  | none => simp [keyOf] at h
  | some s =>
    cases da with
    | none => simp [keyOf] at h
    | some d =>
      simp only [keyOf] at h
      cases h
      exact ⟨rfl, rfl⟩

theorem mem_pivot_keys (rows : List CleanRow) (k : String × Date) :
    k ∈ pivot_keys rows ↔ k ∈ rows.filterMap keyOf := by
  unfold pivot_keys
  rw [(perm_sortLe keyLe _).mem_iff]
  exact mem_dedupKeepFirst _ _

theorem nodup_pivot_keys (rows : List CleanRow) : (pivot_keys rows).Nodup :=
  (perm_sortLe keyLe _).symm.nodup (nodup_dedupKeepFirst _)

theorem length_pivot_keys (rows : List CleanRow) :
    (pivot_keys rows).length = (rows.filterMap keyOf).toFinset.card := by
  unfold pivot_keys
  rw [(perm_sortLe keyLe _).length_eq]
  have h1 : (dedupKeepFirst (rows.filterMap keyOf)).toFinset = (rows.filterMap keyOf).toFinset := by
    ext a
    simp [List.mem_toFinset, mem_dedupKeepFirst]
  rw [← h1, List.toFinset_card_of_nodup (nodup_dedupKeepFirst _)]

theorem ct_key_station (df : RawTable) (ct : CleanTable) (k : String × Date)
    (hc : clean_raw_data (CTAnalysis.filterStation df) = .ok ct)
    (hk : k ∈ pivot_keys ct.rows) : k.1 = "CT" := by
  rcases List.mem_filterMap.mp ((mem_pivot_keys _ _).mp hk) with ⟨cr, hcr, hkey⟩
  have h1 := (keyOf_elim cr k hkey).1
  have h2 := ct_clean_station df ct cr hc hcr
  rw [h1] at h2
  exact (Option.some_inj.mp h2)

theorem ct_key_valid (df : RawTable) (ct : CleanTable) (k : String × Date)
    (hc : clean_raw_data (CTAnalysis.filterStation df) = .ok ct)
    (hk : k ∈ pivot_keys ct.rows) : validYmd k.2 := by
  rcases List.mem_filterMap.mp ((mem_pivot_keys _ _).mp hk) with ⟨cr, hcr, hkey⟩
  exact ct_clean_date_valid df ct cr hc hcr k.2 (keyOf_elim cr k hkey).2

/-! ### Claim theorems -/

/-- C1: within one (station, date) group, the slot of a catalog-matched
parameter in the emitted ReportRow equals the result of the record
appearing latest in input order (last-write-wins); in particular, on the
three-row scenario input the CT pivot emits exactly one row for
("CT", 2021-01-05) with slot 1 = 12.0, slot 2 = 5.0 and all other slots
null. -/
theorem claim1_last_write_wins (rows : List CleanRow) (out : FinalTable)
    (s : String) (d : Date) (k : Nat) (r : CleanRow)
    (hp : CTAnalysis.pivot_data rows = .ok out)
    (hk : (s, d) ∈ pivot_keys rows)
    (hr : (group_rows s d rows).reverse.find? (writesSlot CTAnalysis.PARAM_ORDER k)
            = some r) :
    (∃ fr ∈ out.rows,
       fr.station = s ∧ fr.dates = formatDate d ∧ fr.slots[k]? = some r.result)
    ∧ CTAnalysis.process c1Table = .ok c1Out := by
  constructor
  · rcases ct_pivot_data_ok rows out hp with ⟨_, hrows⟩
    have hmem1 : (⟨s, d, fillSlots CTAnalysis.PARAM_ORDER initSlots (group_rows s d rows)⟩ :
        ReportRow) ∈ CTAnalysis.report_rows rows := by
      unfold CTAnalysis.report_rows
      exact List.mem_map.mpr ⟨(s, d), hk, rfl⟩
    have hmem2 := (perm_sortLe rowDateLe (CTAnalysis.report_rows rows)).mem_iff.mpr hmem1
    refine ⟨finalRowOf ⟨s, d, fillSlots CTAnalysis.PARAM_ORDER initSlots (group_rows s d rows)⟩,
      ?_, rfl, rfl, ?_⟩
    · rw [hrows]
      exact List.mem_map_of_mem finalRowOf hmem2
    · show (fillSlots CTAnalysis.PARAM_ORDER initSlots (group_rows s d rows))[k]? = some r.result
      rw [fillSlots_lww _ _ _ _ (by decide), hr]
  · rfl

/-- Witness for C1 at the specification's three-row scenario. -/
theorem claim1_last_write_wins_witness :
    CTAnalysis.pivot_data (CTAnalysis.cleaned_rows c1Table) = .ok c1Out
    ∧ ("CT", (⟨2021, 1, 5⟩ : Date)) ∈ pivot_keys (CTAnalysis.cleaned_rows c1Table)
    ∧ ((group_rows "CT" ⟨2021, 1, 5⟩ (CTAnalysis.cleaned_rows c1Table)).reverse.find?
        (writesSlot CTAnalysis.PARAM_ORDER 0) = some c1FlowRow)
    ∧ ((∃ fr ∈ c1Out.rows, fr.station = "CT" ∧ fr.dates = formatDate ⟨2021, 1, 5⟩
          ∧ fr.slots[0]? = some (some 12))
        ∧ CTAnalysis.process c1Table = .ok c1Out) :=
  ⟨rfl, by decide, by decide,
   claim1_last_write_wins (CTAnalysis.cleaned_rows c1Table) c1Out "CT" ⟨2021, 1, 5⟩ 0
     c1FlowRow rfl (by decide) (by decide)⟩

/-- C6: for a table passing column validation, CT processing fails with
the empty-input error exactly when filtering to Station_ID = CT leaves
zero rows; the error fires before any cleaning or grouping (the witness
table's rows are not even date-parseable). -/
theorem claim6_empty_filter (df : RawTable)
    (hv : BaseAnalysis.validate_input df CTAnalysis.REQUIRED_COLUMNS = .ok ()) :
    CTAnalysis.process df = .error .emptyInput
      ↔ (CTAnalysis.filterStation df).rows = [] := by
  unfold CTAnalysis.process
  rw [hv]
  cases hemp : (CTAnalysis.filterStation df).rows.isEmpty with
  | true =>
    simp only [if_true]
    constructor
    · intro _
      exact List.isEmpty_iff.mp hemp
    · intro _
      trivial
  | false =>
    simp only [Bool.false_eq_true, if_false]
    constructor
    · intro h
      cases hc : clean_raw_data (CTAnalysis.filterStation df) with
      | error e =>
        rw [hc] at h
        cases h
        have := clean_raw_data_error _ _ hc
        exact absurd this (by simp)
      | ok ct =>
        rw [hc] at h
        have h' : CTAnalysis.pivot_data ct.rows = .error .emptyInput := h
        have := ct_pivot_data_error _ _ h'
        exact absurd this (by simp)
    · intro hnil
      have : (CTAnalysis.filterStation df).rows.isEmpty = true := by
        rw [hnil]; rfl
      rw [this] at hemp
      exact absurd hemp (by simp)

/-- Witness for C6: a table holding only XYZ rows raises the
empty-input error. -/
theorem claim6_empty_filter_witness :
    BaseAnalysis.validate_input c6Xyz CTAnalysis.REQUIRED_COLUMNS = .ok ()
    ∧ CTAnalysis.process c6Xyz = .error .emptyInput :=
  ⟨rfl, (claim6_empty_filter c6Xyz rfl).mpr rfl⟩

/-- C7: validation fails with a schema error exactly when some required
column is absent from the table's column set; it depends only on the
column list (so it never inspects row values and has no effect on the
data); and on a table missing Result, processing fails with the schema
error before any cleaning or grouping. -/
theorem claim7_validate (df dfSameCols : RawTable) (req : List String)
    (hcols : dfSameCols.cols = df.cols) (hres : "Result" ∉ df.cols) :
    ((∃ m, BaseAnalysis.validate_input df req = .error (.schema m))
        ↔ ∃ c ∈ req, c ∉ df.cols)
    ∧ BaseAnalysis.validate_input dfSameCols req = BaseAnalysis.validate_input df req
    ∧ CTAnalysis.process df =
        .error (.schema (CTAnalysis.REQUIRED_COLUMNS.filter
          (fun c => !(df.cols.contains c)))) := by
  have hmemf : ∀ c, c ∈ req.filter (fun c => !(df.cols.contains c))
      ↔ c ∈ req ∧ c ∉ df.cols := by
    intro c
    rw [List.mem_filter]
    constructor
    · rintro ⟨h1, h2⟩
      rw [Bool.not_eq_true'] at h2
      exact ⟨h1, fun hmem => by rw [(contains_iff_mem _ _).mpr hmem] at h2; cases h2⟩
    · rintro ⟨h1, h2⟩
      refine ⟨h1, ?_⟩
      rw [Bool.not_eq_true']
      cases hcc : df.cols.contains c with
      | false => rfl
      | true => exact absurd ((contains_iff_mem _ _).mp hcc) h2
  refine ⟨?_, ?_, ?_⟩
  · simp only [BaseAnalysis.validate_input]
    cases hm : (req.filter (fun c => !(df.cols.contains c))).isEmpty with
    | true =>
      simp only [if_true]
      constructor
      · rintro ⟨m, hm2⟩
        exact absurd hm2 (by simp)
      · rintro ⟨c, hc1, hc2⟩
        have : c ∈ req.filter (fun c => !(df.cols.contains c)) :=
          (hmemf c).mpr ⟨hc1, hc2⟩
        rw [List.isEmpty_iff.mp hm] at this
        simp at this
    | false =>
      simp only [Bool.false_eq_true, if_false]
      constructor
      · intro _
        rcases List.isEmpty_eq_false_iff_exists_mem.mp hm with ⟨c, hc⟩
        exact ⟨c, ((hmemf c).mp hc).1, ((hmemf c).mp hc).2⟩
      · intro _
        exact ⟨_, rfl⟩
  · simp only [BaseAnalysis.validate_input, hcols]
  · have hcontf : df.cols.contains "Result" = false := by
      cases hcc : df.cols.contains "Result" with
      | false => rfl
      | true => exact absurd ((contains_iff_mem _ _).mp hcc) hres
    have hResMem : "Result" ∈ CTAnalysis.REQUIRED_COLUMNS.filter
        (fun c => !(df.cols.contains c)) :=
      List.mem_filter.mpr ⟨by decide, by rw [hcontf]; rfl⟩
    have hne : (CTAnalysis.REQUIRED_COLUMNS.filter
        (fun c => !(df.cols.contains c))).isEmpty = false := by
      cases hl : CTAnalysis.REQUIRED_COLUMNS.filter (fun c => !(df.cols.contains c)) with
      | nil => rw [hl] at hResMem; simp at hResMem
      | cons a l => rfl
    unfold CTAnalysis.process
    simp only [BaseAnalysis.validate_input, hne, Bool.false_eq_true, if_false]

/-- Witness for C7 on a table missing the Result column. -/
theorem claim7_validate_witness :
    (c7Same.cols = c7Missing.cols ∧ "Result" ∉ c7Missing.cols)
    ∧ ((∃ m, BaseAnalysis.validate_input c7Missing CTAnalysis.REQUIRED_COLUMNS
          = .error (.schema m))
        ↔ ∃ c ∈ CTAnalysis.REQUIRED_COLUMNS, c ∉ c7Missing.cols)
    ∧ BaseAnalysis.validate_input c7Same CTAnalysis.REQUIRED_COLUMNS
        = BaseAnalysis.validate_input c7Missing CTAnalysis.REQUIRED_COLUMNS
    ∧ CTAnalysis.process c7Missing = .error (.schema ["Result"]) := by
  have h := claim7_validate c7Missing c7Same CTAnalysis.REQUIRED_COLUMNS rfl (by decide)
  exact ⟨⟨rfl, by decide⟩, h.1, h.2.1, h.2.2⟩

/-- C8: a record whose trimmed parameter code is outside the catalog
never populates any slot (dropping all such records leaves the slot
computation unchanged, and the slot fold is total, so no error can
arise), and a group with zero catalog-matched records still yields a
ReportRow with all 25 slots null. -/
theorem claim8_unknown_pcodes (rows : List CleanRow) (s : String) (d : Date)
    (hk : (s, d) ∈ pivot_keys rows)
    (hall : ∀ r ∈ group_rows s d rows, isCatalogOf CTAnalysis.PARAM_ORDER r = false) :
    (∀ (g : List CleanRow) (init : List (Option ℚ)),
       fillSlots CTAnalysis.PARAM_ORDER init g =
         fillSlots CTAnalysis.PARAM_ORDER init
           (g.filter (isCatalogOf CTAnalysis.PARAM_ORDER)))
    ∧ (⟨s, d, initSlots⟩ : ReportRow) ∈ CTAnalysis.report_rows rows := by
  refine ⟨fun g init => fillSlots_filter _ _ _, ?_⟩
  have hfil : (group_rows s d rows).filter (isCatalogOf CTAnalysis.PARAM_ORDER) = [] :=
    List.filter_eq_nil_iff.mpr (fun a ha => by rw [hall a ha]; simp)
  have hfill : fillSlots CTAnalysis.PARAM_ORDER initSlots (group_rows s d rows)
      = initSlots := by
    rw [fillSlots_filter, hfil]
    rfl
  unfold CTAnalysis.report_rows
  refine List.mem_map.mpr ⟨(s, d), hk, ?_⟩
  rw [hfill]

/-- Witness for C8 on a one-record group with the unknown code
MYSTERY. -/
theorem claim8_unknown_pcodes_witness :
    ("CT", (⟨2021, 1, 5⟩ : Date)) ∈ pivot_keys c8Rows
    ∧ ((∀ (g : List CleanRow) (init : List (Option ℚ)),
         fillSlots CTAnalysis.PARAM_ORDER init g =
           fillSlots CTAnalysis.PARAM_ORDER init
             (g.filter (isCatalogOf CTAnalysis.PARAM_ORDER)))
       ∧ (⟨"CT", ⟨2021, 1, 5⟩, initSlots⟩ : ReportRow) ∈ CTAnalysis.report_rows c8Rows) :=
  ⟨by decide, claim8_unknown_pcodes c8Rows "CT" ⟨2021, 1, 5⟩ (by decide) (by decide)⟩

/-- C3 counterexample: a CT upload with one unparseable timestamp makes
the whole run abort with a parse error — no sentinel, no per-row
recovery — while the same upload without that row succeeds. -/
theorem claim3_unparseable_aborts_cx :
    CTAnalysis.process c3Bad = .error .parse
    ∧ CTAnalysis.process c3Good = .ok c3GoodOut :=
  ⟨rfl, rfl⟩

/-- C3 amended: for a table passing validation whose station filter is
inhabited, one row with an unparseable timestamp makes CT processing
raise a parse error, aborting that station's run (a missing timestamp,
by contrast, becomes NaT and is merely excluded from grouping). -/
theorem claim3_unparseable_aborts (df : RawTable)
    (hv : BaseAnalysis.validate_input df CTAnalysis.REQUIRED_COLUMNS = .ok ())
    (hbad : ∃ r ∈ (CTAnalysis.filterStation df).rows,
              ∃ s, r.dateTime = some s ∧ parseDate s = none) :
    CTAnalysis.process df = .error .parse := by
  rcases hbad with ⟨⟨st, dt, pc, res⟩, hr, s, hs, hps⟩
  cases hs
  have hferr : cleanRowOf (pcodeTrim ⟨st, some s, pc, res⟩) = .error Err.parse := by
    simp only [cleanRowOf, pcodeTrim, hps]
  have hmm : pcodeTrim ⟨st, some s, pc, res⟩
      ∈ (CTAnalysis.filterStation df).rows.map pcodeTrim :=
    List.mem_map_of_mem pcodeTrim hr
  rcases mapExcept_error_of_mem cleanRowOf _ _ _ hmm hferr with ⟨e, he⟩
  have hce : clean_raw_data (CTAnalysis.filterStation df) = .error e := by
    unfold clean_raw_data
    rw [he]
  have heq : e = .parse := clean_raw_data_error _ _ hce
  have hne : (CTAnalysis.filterStation df).rows.isEmpty = false := by
    cases hrows : (CTAnalysis.filterStation df).rows with
    | nil => rw [hrows] at hr; simp at hr
    | cons a l => rfl
  unfold CTAnalysis.process
  rw [hv]
  simp only [hne, Bool.false_eq_true, if_false, hce, heq]

/-- Witness for the amended C3 on the concrete two-row upload. -/
theorem claim3_unparseable_aborts_witness :
    BaseAnalysis.validate_input c3Bad CTAnalysis.REQUIRED_COLUMNS = .ok ()
    ∧ CTAnalysis.process c3Bad = .error .parse :=
  ⟨rfl, claim3_unparseable_aborts c3Bad rfl ⟨c3BadRow, by decide, "not-a-date", rfl, rfl⟩⟩

/-- C4 counterexample: the pipeline does not deduplicate before
pivoting — on an upload whose first row recurs verbatim at the end, the
emitted FLOW slot is 10 (the duplicate wrote last), whereas the
duplicate-free table yields 12, so an exact-duplicate raw row does
contribute to the ReportRow. -/
theorem claim4_no_dedup_cx :
    CTAnalysis.process c4Full = .ok c4FullOut
    ∧ CTAnalysis.process c4Dedup = .ok c4DedupOut
    ∧ c4Dedup.rows = dedupKeepFirst c4Full.rows
    ∧ c4FullOut ≠ c4DedupOut :=
  ⟨rfl, rfl, by decide, by decide⟩

/-- C4 amended: the base class's `clean_data` does remove exact
duplicates and all-null rows, but `process` never invokes it: cleaning
drops no rows, so duplicates reach the pivot, while a fully-empty raw
row is excluded only because its null Station_ID fails the station
filter. -/
theorem claim4_clean_data_unused (df : RawTable) (ct : CleanTable)
    (hc : clean_raw_data (CTAnalysis.filterStation df) = .ok ct) :
    ct.rows.length = (CTAnalysis.filterStation df).rows.length
    ∧ (∀ r : RawRow, BaseAnalysis.isAllNull r = true
        → r ∉ (CTAnalysis.filterStation df).rows)
    ∧ (BaseAnalysis.clean_data df).rows.Nodup
    ∧ (∀ r ∈ (BaseAnalysis.clean_data df).rows, BaseAnalysis.isAllNull r = false) := by
  refine ⟨?_, ?_, ?_, ?_⟩
  · have h1 := mapExcept_ok_length _ _ _ (clean_raw_data_rows _ _ hc)
    rw [h1, List.length_map]
  · intro r hall hmem
    have hst := ct_filterStation_station df r hmem
    simp only [BaseAnalysis.isAllNull, Bool.and_eq_true, decide_eq_true_eq] at hall
    rw [hall.1.1.1] at hst
    exact absurd hst (by simp)
  · exact (nodup_dedupKeepFirst df.rows).filter _
  · intro r hr
    have h2 := (List.mem_filter.mp hr).2
    rw [Bool.not_eq_true'] at h2
    exact h2

/-- Witness for the amended C4 on the duplicate-bearing upload. -/
theorem claim4_clean_data_unused_witness :
    clean_raw_data (CTAnalysis.filterStation c4Full) = .ok
      ⟨["Station_ID", "Date_Time", "PCode", "Result", "Date"],
       [⟨some "CT", some "2021-01-05T08:00", some "FLOW, IN", some 10, some ⟨2021, 1, 5⟩⟩,
        ⟨some "CT", some "2021-01-05T09:00", some "FLOW, IN", some 12, some ⟨2021, 1, 5⟩⟩,
        ⟨some "CT", some "2021-01-05T08:00", some "FLOW, IN", some 10, some ⟨2021, 1, 5⟩⟩]⟩
    ∧ (⟨["Station_ID", "Date_Time", "PCode", "Result", "Date"],
       [⟨some "CT", some "2021-01-05T08:00", some "FLOW, IN", some 10, some ⟨2021, 1, 5⟩⟩,
        ⟨some "CT", some "2021-01-05T09:00", some "FLOW, IN", some 12, some ⟨2021, 1, 5⟩⟩,
        ⟨some "CT", some "2021-01-05T08:00", some "FLOW, IN", some 10, some ⟨2021, 1, 5⟩⟩]⟩
        : CleanTable).rows.length = (CTAnalysis.filterStation c4Full).rows.length := by
  refine ⟨by rfl, ?_⟩
  exact (claim4_clean_data_unused c4Full _ (by rfl)).1

/-- C2: a successful CT run emits exactly one row per distinct
(station, date) pair present in the cleaned, station-filtered table (a
row with a missing station or an NaT date carries no pair), and each
date string occurs exactly once in the output. -/
theorem claim2_one_row_per_pair (df : RawTable) (out : FinalTable)
    (h : CTAnalysis.process df = .ok out) :
    out.rows.length = ((CTAnalysis.cleaned_rows df).filterMap keyOf).toFinset.card
    ∧ (out.rows.map FinalRow.dates).Nodup := by
  rcases ct_process_ok_elim df out h with ⟨ct, hv, hne, hc, hpiv⟩
  rcases ct_pivot_data_ok _ _ hpiv with ⟨hhead, hrows⟩
  have hceq := ct_cleaned_rows_eq df ct hc
  rw [hceq]
  constructor
  · rw [hrows, List.length_map, (perm_sortLe rowDateLe _).length_eq]
    unfold CTAnalysis.report_rows
    rw [List.length_map, length_pivot_keys]
  · rw [hrows, List.map_map]
    have hperm := ((perm_sortLe rowDateLe (CTAnalysis.report_rows ct.rows)).map
      (FinalRow.dates ∘ finalRowOf)).symm
    refine hperm.nodup ?_
    unfold CTAnalysis.report_rows
    rw [List.map_map]
    refine List.Nodup.map_on ?_ (nodup_pivot_keys ct.rows)
    intro k1 hk1 k2 hk2 heq
    have heq' : formatDate k1.2 = formatDate k2.2 := heq
    have e2 := formatDate_inj k1.2 k2.2 (ct_key_valid df ct k1 hc hk1)
      (ct_key_valid df ct k2 hc hk2) heq'
    have s1 := ct_key_station df ct k1 hc hk1
    have s2 := ct_key_station df ct k2 hc hk2
    obtain ⟨a1, b1⟩ := k1
    obtain ⟨a2, b2⟩ := k2
    simp only at s1 s2 e2
    rw [s1, s2, e2]

/-- Witness for C2 on the three-row scenario upload. -/
theorem claim2_one_row_per_pair_witness :
    CTAnalysis.process c1Table = .ok c1Out
    ∧ c1Out.rows.length = ((CTAnalysis.cleaned_rows c1Table).filterMap keyOf).toFinset.card
    ∧ (c1Out.rows.map FinalRow.dates).Nodup :=
  ⟨rfl, claim2_one_row_per_pair c1Table c1Out rfl⟩

/-- C9: a successful CT run renders dates as fixed-width YYYY-MM-DD
strings, sorts its rows ascending by date, and fixes the column order
to Station, Dates, Data 1 .. Data 25 with slot names derived from the
position. -/
theorem claim9_assembled_shape (df : RawTable) (out : FinalTable)
    (h : CTAnalysis.process df = .ok out) :
    out.header = ["Station", "Dates", "Data 1", "Data 2", "Data 3", "Data 4", "Data 5",
      "Data 6", "Data 7", "Data 8", "Data 9", "Data 10", "Data 11", "Data 12", "Data 13",
      "Data 14", "Data 15", "Data 16", "Data 17", "Data 18", "Data 19", "Data 20",
      "Data 21", "Data 22", "Data 23", "Data 24", "Data 25"]
    ∧ out.header = ["Station", "Dates"]
        ++ (List.range 25).map (fun i => "Data " ++ toString (i + 1))
    ∧ (∃ rs : List ReportRow,
         out.rows = rs.map finalRowOf
         ∧ rs.Pairwise (fun a b => dateLe a.date b.date = true))
    ∧ (∀ fr ∈ out.rows, isYmdString fr.dates = true) := by
  rcases ct_process_ok_elim df out h with ⟨ct, hv, hne, hc, hpiv⟩
  rcases ct_pivot_data_ok _ _ hpiv with ⟨hhead, hrows⟩
  refine ⟨by rw [hhead]; rfl, by rw [hhead]; rfl, ?_, ?_⟩
  · exact ⟨sortLe rowDateLe (CTAnalysis.report_rows ct.rows), hrows,
      pairwise_sortLe rowDateLe rowDateLe_total rowDateLe_trans _⟩
  · intro fr hfr
    rw [hrows] at hfr
    rcases List.mem_map.mp hfr with ⟨rr, hrr, rfl⟩
    have hrr2 : rr ∈ CTAnalysis.report_rows ct.rows :=
      (perm_sortLe rowDateLe _).mem_iff.mp hrr
    unfold CTAnalysis.report_rows at hrr2
    rcases List.mem_map.mp hrr2 with ⟨k, hk, rfl⟩
    show isYmdString (formatDate k.2) = true
    exact isYmdString_formatDate k.2

/-- Witness for C9 on the three-row scenario upload. -/
theorem claim9_assembled_shape_witness :
    CTAnalysis.process c1Table = .ok c1Out
    ∧ c1Out.header = ["Station", "Dates", "Data 1", "Data 2", "Data 3", "Data 4", "Data 5",
      "Data 6", "Data 7", "Data 8", "Data 9", "Data 10", "Data 11", "Data 12", "Data 13",
      "Data 14", "Data 15", "Data 16", "Data 17", "Data 18", "Data 19", "Data 20",
      "Data 21", "Data 22", "Data 23", "Data 24", "Data 25"]
    ∧ ∀ fr ∈ c1Out.rows, isYmdString fr.dates = true := by
  have h := claim9_assembled_shape c1Table c1Out rfl
  exact ⟨rfl, h.1, h.2.2.2⟩

/-! ### Store update lemmas -/

theorem lookup_setTable_self (tbls : App.Tables) (tid : String) (t : FinalTable) :
    App.lookupTable (App.setTable tbls tid t) tid = some t := by
  induction tbls with
  | nil => simp [App.setTable, App.lookupTable]
  | cons kv rest ih =>
    obtain ⟨k, v⟩ := kv
    by_cases hk : k = tid
    · simp [App.setTable, App.lookupTable, hk]
    · simp [App.setTable, App.lookupTable, hk, ih]

theorem lookup_setTable_ne (tbls : App.Tables) (tid tid' : String) (t : FinalTable)
    (h : tid' ≠ tid) :
    App.lookupTable (App.setTable tbls tid t) tid' = App.lookupTable tbls tid' := by
  induction tbls with
  | nil => simp [App.setTable, App.lookupTable, Ne.symm h]
  | cons kv rest ih =>
    obtain ⟨k, v⟩ := kv
    by_cases hk : k = tid
    · subst hk
      simp [App.setTable, App.lookupTable, Ne.symm h]
    · by_cases hk' : k = tid'
      · subst hk'
        simp [App.setTable, App.lookupTable, hk]
      · simp [App.setTable, App.lookupTable, hk, hk', ih]

/-- C5 counterexample: on an upload holding a failing CT row and a valid
TUS row, the batch loop reports the CT failure and returns False without
ever attempting TUS — even though TUS processing would have succeeded —
so a failure in one station does prevent attempting the next. -/
theorem claim5_failure_stops_batch_cx :
    App.process_and_upload_data c5Df (fun _ => true) [] =
      (false, [App.StEv.procError "CT" Err.parse], [])
    ∧ App.attempted [App.StEv.procError "CT" Err.parse] = ["CT"]
    ∧ TUSAnalysis.process c5Df = .ok c5TusOut :=
  ⟨rfl, rfl, rfl⟩

/-- C5 amended: stations are processed sequentially in first-appearance
order; a processing error or a failed upload at any station makes the
loop return False immediately with the store untouched, skipping every
remaining station; a successful upload replaces exactly that station's
table and continues. -/
theorem claim5_failure_stops_batch (df : RawTable) (g : String → Bool)
    (tbls : App.Tables) (st : Option String) (rest : List (Option String))
    (name tid : String) (e : Err) (out : FinalTable)
    (hknown : App.stationTable st = some (name, tid)) :
    (App.stationProc st df = .error e →
       App.runStations df g (st :: rest) tbls
         = (false, [App.StEv.procError name e], tbls))
    ∧ (App.stationProc st df = .ok out → g tid = false →
       App.runStations df g (st :: rest) tbls
         = (false, [App.StEv.uploadError name], tbls))
    ∧ (App.stationProc st df = .ok out → g tid = true →
       App.runStations df g (st :: rest) tbls
         = ((App.runStations df g rest (App.setTable tbls tid out)).1,
            App.StEv.uploaded name
              :: (App.runStations df g rest (App.setTable tbls tid out)).2.1,
            (App.runStations df g rest (App.setTable tbls tid out)).2.2))
    ∧ (∀ tid', tid' ≠ tid →
         App.lookupTable (App.setTable tbls tid out) tid' = App.lookupTable tbls tid')
    ∧ App.lookupTable (App.setTable tbls tid out) tid = some out := by
  refine ⟨?_, ?_, ?_, ?_, ?_⟩
  · intro hproc
    conv_lhs => rw [App.runStations]
    simp only [hknown, hproc]
  · intro hproc hg
    conv_lhs => rw [App.runStations]
    simp only [hknown, hproc, App.upload_dataframe, hg, Bool.false_eq_true, if_false]
  · intro hproc hg
    conv_lhs => rw [App.runStations]
    simp only [hknown, hproc, App.upload_dataframe, hg, if_true]
  · intro tid' h
    exact lookup_setTable_ne tbls tid tid' out h
  · exact lookup_setTable_self tbls tid out

/-- Witness for the amended C5: the failing CT station stops the
concrete batch with the store untouched. -/
theorem claim5_failure_stops_batch_witness :
    App.stationTable (some "CT") = some ("CT", App.ct_table)
    ∧ App.stationProc (some "CT") c5Df = .error Err.parse
    ∧ App.runStations c5Df (fun _ => true) [some "CT", some "TUS"] []
        = (false, [App.StEv.procError "CT" Err.parse], []) :=
  ⟨rfl, rfl,
   (claim5_failure_stops_batch c5Df (fun _ => true) [] (some "CT") [some "TUS"]
     "CT" App.ct_table Err.parse c5TusOut rfl).1 rfl⟩

/-- C10: running the CT analyzer never mutates the caller's DataFrame:
replaying the pandas allocation/in-place-assignment discipline of
`process` on an explicit object heap leaves the input object untouched,
and the heap run returns exactly the pure `process` result. -/
theorem claim10_input_unchanged (h : List Obj) (i : Nat) (df : RawTable)
    (hget : h[i]? = some (Obj.raw df)) :
    (CTAnalysis.processOnHeap h i).1[i]? = some (Obj.raw df)
    ∧ (CTAnalysis.processOnHeap h i).2 = CTAnalysis.process df := by
  have hi : i < h.length := by
    rcases List.getElem?_eq_some_iff.mp hget with ⟨hlt, _⟩
    exact hlt
  have hget1 : (h ++ [Obj.raw (CTAnalysis.filterStation df)])[i]?
      = some (Obj.raw df) := by
    rw [List.getElem?_append_left hi]
    exact hget
  have hi1 : i < (h ++ [Obj.raw (CTAnalysis.filterStation df)]).length := by
    rw [List.length_append]
    omega
  have hget2 : (h ++ [Obj.raw (CTAnalysis.filterStation df)]
      ++ [Obj.raw (CTAnalysis.filterStation df)])[i]? = some (Obj.raw df) := by
    rw [List.getElem?_append_left hi1]
    exact hget1
  have hi2 : i < (h ++ [Obj.raw (CTAnalysis.filterStation df)]
      ++ [Obj.raw (CTAnalysis.filterStation df)]).length := by
    simp only [List.length_append]
    omega
  have hget3 : (h ++ [Obj.raw (CTAnalysis.filterStation df)]
      ++ [Obj.raw (CTAnalysis.filterStation df)]
      ++ [Obj.raw (CTAnalysis.filterStation df)])[i]? = some (Obj.raw df) := by
    rw [List.getElem?_append_left hi2]
    exact hget2
  have hj : i ≠ (h ++ [Obj.raw (CTAnalysis.filterStation df)]
      ++ [Obj.raw (CTAnalysis.filterStation df)]).length := by
    simp only [List.length_append]
    omega
  unfold CTAnalysis.processOnHeap CTAnalysis.process
  simp only [hget]
  cases hv : BaseAnalysis.validate_input df CTAnalysis.REQUIRED_COLUMNS with
  | error e =>
    simp only [hv]
    exact ⟨hget, trivial⟩
  | ok u =>
    cases u
    simp only [hv]
    cases hemp : (CTAnalysis.filterStation df).rows.isEmpty with
    | true =>
      simp only [hemp, if_true]
      exact ⟨hget2, trivial⟩
    | false =>
      simp only [hemp, Bool.false_eq_true, if_false]
      unfold clean_raw_data
      cases hm : mapExcept cleanRowOf ((CTAnalysis.filterStation df).rows.map pcodeTrim) with
      | error e =>
        simp only [hm]
        constructor
        · rw [List.getElem?_set_ne (Ne.symm hj), List.getElem?_set_ne (Ne.symm hj)]
          exact hget3
        · trivial
      | ok crows =>
        simp only [hm]
        constructor
        · rw [List.getElem?_set_ne (Ne.symm hj), List.getElem?_set_ne (Ne.symm hj),
            List.getElem?_set_ne (Ne.symm hj)]
          exact hget3
        · trivial

/-- Witness for C10 on a one-object heap holding the scenario table. -/
theorem claim10_input_unchanged_witness :
    ([Obj.raw c1Table] : List Obj)[0]? = some (Obj.raw c1Table)
    ∧ (CTAnalysis.processOnHeap [Obj.raw c1Table] 0).1[0]? = some (Obj.raw c1Table)
    ∧ (CTAnalysis.processOnHeap [Obj.raw c1Table] 0).2 = CTAnalysis.process c1Table :=
  ⟨rfl, claim10_input_unchanged [Obj.raw c1Table] 0 c1Table rfl⟩

end WaterQuality
